import Mathlib

/-!
Verification of the deployment subsystem of the soroban-sdk `deploy` module
(`src/soroban-sdk/src/deploy.rs`).

The module under verification is a thin SDK layer over a host execution
environment: `Deployer`, `DeployerWithAddress` and `DeployerWithAsset` hold a
deployment key and forward each operation to a host function
(`create_contract`, `upload_wasm`, `get_contract_id`, `get_asset_contract_id`,
`update_current_contract_wasm`, `extend_contract_instance_and_code_ttl`).
The host itself is not part of the repository, so it is modelled here from the
specification: a `HostState` record with the contracts map, the code registry,
the authorization set and the pending-code-swap slot, and one transition
function per host interface entry.  The SDK layer is translated literally from
`deploy.rs` on top of that host model.
-/

namespace Soroban

/-- Modelled from the spec: a contract address is a pure, collision-free
function of the discriminated deployment key — either a canonical
`(deployer address, salt)` pair or a serialized asset descriptor, with a
scheme discriminator so the two derivation families never overlap.  The
derivation is modelled as the constructors of this inductive type (an
injective function with disjoint ranges per scheme); `account` covers
addresses that are not contract addresses. -/
inductive Address where
  | account (id : Nat)
  | contractFromKey (deployer : Address) (salt : List Nat)
  | contractFromAsset (descriptor : List Nat)
deriving DecidableEq

/-- Modelled from the spec: a 32-byte content digest of uploaded code.  The
hash is collision-free for the purposes of the spec, so it is modelled as the
injective function wrapping the hashed bytes. -/
structure Digest where
  bytes : List Nat
deriving DecidableEq

/-- Modelled from the spec: the executable reference installed at a deployed
contract address — either an uploaded Wasm digest or the built-in asset
contract. -/
inductive Executable where
  | wasm (wasmHash : Digest)
  | hcnetAsset
deriving DecidableEq

/-- Modelled from the spec: the backing artifact stored at an allocated
contract address: its executable reference and the two independent TTL
counters, one for the code entry and one for the instance entry. -/
structure Artifact where
  executable : Executable
  ttlInstance : Nat
  ttlCode : Nat
deriving DecidableEq

/-- Modelled from the spec: the failure taxonomy the host reports
(section 7 of the spec). -/
inductive HostError where
  | unauthorized
  | alreadyExists
  | notFound
deriving DecidableEq

/-- Modelled from the spec: the host-owned state this core's requests act on:
the content-addressed code registry, the (address to artifact) contracts map
(at most one artifact per address), the currently executing contract, the set
of addresses that have authorized the present invocation, and the recorded
pending code swap that is applied only when the invocation commits. -/
structure HostState where
  codeRegistry : List Digest
  contracts : List (Address × Artifact)
  currentContract : Address
  authorized : List Address
  pendingWasm : Option Digest
deriving DecidableEq

/-- Association-list lookup for the contracts map. -/
def lookupArtifact : List (Address × Artifact) → Address → Option Artifact
  | [], _ => none
  | (b, art) :: rest, a => if b = a then some art else lookupArtifact rest a

/-- The artifact stored at an address, if the address is allocated. -/
def HostState.lookup (s : HostState) (a : Address) : Option Artifact :=
  lookupArtifact s.contracts a

/-- Modelled from the spec: the TTL the host assigns to freshly created
entries; the spec leaves the value unspecified and no claim depends on it. -/
def initialTtl : Nat := 0

/-- Modelled from the spec: host `upload_wasm` — content-addresses the bytes
and stores the digest in the code registry, deduplicating identical uploads. -/
def uploadWasm (s : HostState) (contractWasm : List Nat) : Digest × HostState :=
  if (⟨contractWasm⟩ : Digest) ∈ s.codeRegistry then (⟨contractWasm⟩, s)
  else
    (⟨contractWasm⟩,
     { s with codeRegistry := ⟨contractWasm⟩ :: s.codeRegistry })

/-- Modelled from the spec: host `get_contract_id` — pure derivation of the
generic-scheme contract address from the deployer address and salt; reads
nothing and writes nothing. -/
def getContractId (s : HostState) (deployer : Address) (salt : List Nat) :
    Address × HostState :=
  (Address.contractFromKey deployer salt, s)

/-- Modelled from the spec: host `get_asset_contract_id` — pure derivation of
the asset-scheme contract address from the serialized asset descriptor. -/
def getAssetContractId (s : HostState) (descriptor : List Nat) :
    Address × HostState :=
  (Address.contractFromAsset descriptor, s)

/-- Modelled from the spec: host `create_contract` — the deployer address must
be the currently executing contract or must have authorized the invocation;
the derived address must be unallocated; on success the artifact is installed
at the derived address, on failure the state is unchanged. -/
def createContract (s : HostState) (deployer : Address) (wasmHash : Digest)
    (salt : List Nat) : Except HostError Address × HostState :=
  if deployer ≠ s.currentContract ∧ deployer ∉ s.authorized then
    (.error .unauthorized, s)
  else
    match s.lookup (Address.contractFromKey deployer salt) with
    | some _ => (.error .alreadyExists, s)
    | none =>
      (.ok (Address.contractFromKey deployer salt),
       { s with
          contracts :=
            (Address.contractFromKey deployer salt,
             ⟨.wasm wasmHash, initialTtl, initialTtl⟩) :: s.contracts })

/-- Modelled from the spec: host `create_asset_contract` — installs the
built-in asset executable at the asset-scheme address if unallocated. -/
def createAssetContract (s : HostState) (descriptor : List Nat) :
    Except HostError Address × HostState :=
  match s.lookup (Address.contractFromAsset descriptor) with
  | some _ => (.error .alreadyExists, s)
  | none =>
    (.ok (Address.contractFromAsset descriptor),
     { s with
        contracts :=
          (Address.contractFromAsset descriptor,
           ⟨.hcnetAsset, initialTtl, initialTtl⟩) :: s.contracts })

/-- Modelled from the spec: one entry's TTL after an extension request — if
the remaining TTL is strictly below the threshold the TTL is raised to
`extendTo`, enforced as a floor (never decreased); otherwise unchanged. -/
def extendTtlEntry (ttl threshold extendTo : Nat) : Nat :=
  if ttl < threshold then max ttl extendTo else ttl

/-- Modelled from the spec: the artifact after a TTL extension request — the
threshold-and-floor policy applied independently to the instance entry and
the code entry. -/
def extendArtifact (threshold extendTo : Nat) (art : Artifact) : Artifact :=
  { art with
     ttlInstance := extendTtlEntry art.ttlInstance threshold extendTo
     ttlCode := extendTtlEntry art.ttlCode threshold extendTo }

/-- Modelled from the spec: host `extend_contract_instance_and_code_ttl` —
fails with NotFound if the address has no artifact; otherwise applies the
threshold-and-floor policy independently to the instance entry and the code
entry of that contract. -/
def extendContractInstanceAndCodeTtl (s : HostState) (a : Address)
    (threshold extendTo : Nat) : Except HostError Unit × HostState :=
  match s.lookup a with
  | none => (.error .notFound, s)
  | some _ =>
    (.ok (),
     { s with
        contracts := s.contracts.map fun p =>
          if p.1 = a then (p.1, extendArtifact threshold extendTo p.2)
          else p })

/-- Modelled from the spec: host `update_current_contract_wasm` — the digest
must already be in the code registry; the swap is only recorded as pending, no
contract entry changes now. -/
def updateCurrentContractWasm (s : HostState) (wasmHash : Digest) :
    Except HostError Unit × HostState :=
  if wasmHash ∈ s.codeRegistry then (.ok (), { s with pendingWasm := some wasmHash })
  else (.error .notFound, s)

/-- Modelled from the spec: an artifact with its executable reference
replaced. -/
def setExecutable (e : Executable) (art : Artifact) : Artifact :=
  { art with executable := e }

/-- Modelled from the spec: the commit step the host performs when the
enclosing invocation completes successfully — a recorded pending code swap is
applied to the currently executing contract's entry. -/
def commitInvocation (s : HostState) : HostState :=
  match s.pendingWasm with
  | none => s
  | some wasmHash =>
    { s with
       pendingWasm := none
       contracts := s.contracts.map fun p =>
         if p.1 = s.currentContract then
           (p.1, setExecutable (.wasm wasmHash) p.2)
         else p }

/-- Modelled from the spec: an invocation runs a body against the host state;
on success the pending effects are committed, on failure the host rolls the
whole invocation back atomically, leaving the initial state. -/
def runInvocation (s : HostState)
    (body : HostState → Except HostError HostState) : HostState :=
  match body s with
  | .ok s2 => commitInvocation s2
  | .error _ => s

/-- From `deploy.rs`: `DeployerWithAddress` stores the deployment key fixed at
construction — the deployer address and the salt (the `env` handle is the
explicit `HostState` threaded through the operations). -/
structure DeployerWithAddress where
  address : Address
  salt : List Nat
deriving DecidableEq

/-- From `deploy.rs`: `DeployerWithAsset` stores the serialized asset fixed at
construction. -/
structure DeployerWithAsset where
  serialized_asset : List Nat
deriving DecidableEq

namespace Deployer

/-- From `deploy.rs` `Deployer::with_current_contract`: builds a
`DeployerWithAddress` whose address is the currently executing contract's
address, read from the environment at construction time. -/
def with_current_contract (s : HostState) (salt : List Nat) :
    DeployerWithAddress :=
  { address := s.currentContract, salt := salt }

/-- From `deploy.rs` `Deployer::with_address`: builds a `DeployerWithAddress`
from the provided address and salt. -/
def with_address (address : Address) (salt : List Nat) : DeployerWithAddress :=
  { address := address, salt := salt }

/-- From `deploy.rs` `Deployer::with_hcnet_asset`: builds a
`DeployerWithAsset` from the provided serialized asset. -/
def with_hcnet_asset (serializedAsset : List Nat) : DeployerWithAsset :=
  { serialized_asset := serializedAsset }

/-- From `deploy.rs` `Deployer::upload_contract_wasm`: forwards the bytes to
the host `upload_wasm` and returns the digest. -/
def upload_contract_wasm (s : HostState) (contractWasm : List Nat) :
    Digest × HostState :=
  uploadWasm s contractWasm

/-- From `deploy.rs` `Deployer::update_current_contract_wasm`: forwards the
digest to the host `update_current_contract_wasm`. -/
def update_current_contract_wasm (s : HostState) (wasmHash : Digest) :
    Except HostError Unit × HostState :=
  updateCurrentContractWasm s wasmHash

/-- From `deploy.rs` `Deployer::extend_ttl`: forwards the address, threshold
and target to the host `extend_contract_instance_and_code_ttl`. -/
def extend_ttl (s : HostState) (contractAddress : Address)
    (threshold extendTo : Nat) : Except HostError Unit × HostState :=
  extendContractInstanceAndCodeTtl s contractAddress threshold extendTo

end Deployer

namespace DeployerWithAddress

/-- From `deploy.rs` `DeployerWithAddress::deployed_address`: forwards the
stored address and salt to the host `get_contract_id`. -/
def deployed_address (s : HostState) (d : DeployerWithAddress) :
    Address × HostState :=
  getContractId s d.address d.salt

/-- From `deploy.rs` `DeployerWithAddress::deploy`: forwards the stored
address, the Wasm hash and the stored salt to the host `create_contract` and
returns the deployed contract's address. -/
def deploy (s : HostState) (d : DeployerWithAddress) (wasmHash : Digest) :
    Except HostError Address × HostState :=
  createContract s d.address wasmHash d.salt

end DeployerWithAddress

namespace DeployerWithAsset

/-- From `deploy.rs` `DeployerWithAsset::deployed_address`: forwards the
stored serialized asset to the host `get_asset_contract_id`. -/
def deployed_address (s : HostState) (d : DeployerWithAsset) :
    Address × HostState :=
  getAssetContractId s d.serialized_asset

/-- From `deploy.rs` `DeployerWithAsset::deploy`: forwards the stored
serialized asset to the host `create_asset_contract`. -/
def deploy (s : HostState) (d : DeployerWithAsset) :
    Except HostError Address × HostState :=
  createAssetContract s d.serialized_asset

end DeployerWithAsset

/-- Concrete host state: one uploaded digest, no contracts, current contract
is account 0, nothing externally authorized. -/
def sEx : HostState :=
  { codeRegistry := [⟨[7]⟩], contracts := [], currentContract := .account 0,
    authorized := [], pendingWasm := none }

/-- Concrete deployer: the current contract of `sEx` with salt `[1, 2]`. -/
def dEx : DeployerWithAddress := { address := .account 0, salt := [1, 2] }

/-- Concrete wasm digest present in `sEx`'s code registry. -/
def hEx : Digest := ⟨[7]⟩

/-- The host state after `dEx` deploys `hEx` on `sEx`. -/
def s2Ex : HostState :=
  { sEx with
     contracts :=
       [(Address.contractFromKey (.account 0) [1, 2],
         ⟨.wasm hEx, initialTtl, initialTtl⟩)] }

/-- Concrete host state with current contract account 0 and an empty
authorization set. -/
def sUnauth : HostState :=
  { codeRegistry := [], contracts := [], currentContract := .account 0,
    authorized := [], pendingWasm := none }

/-- Concrete deployer whose address is neither the current contract of
`sUnauth` nor in its authorization set. -/
def dUnauth : DeployerWithAddress := { address := .account 1, salt := [] }

/-- Concrete contract address allocated in `sTtl`. -/
def aTtl : Address := Address.contractFromKey (.account 0) []

/-- Concrete host state holding one contract at `aTtl` whose instance and
code entries both have remaining TTL 5. -/
def sTtl : HostState :=
  { codeRegistry := [], contracts := [(aTtl, ⟨.wasm ⟨[]⟩, 5, 5⟩)],
    currentContract := .account 0, authorized := [], pendingWasm := none }

/-- Concrete host state whose current contract is a deployed contract with an
uploaded digest available for a code swap. -/
def sUpd : HostState :=
  { codeRegistry := [⟨[9]⟩, ⟨[8]⟩],
    contracts := [(Address.contractFromKey (.account 3) [4],
                   ⟨.wasm ⟨[8]⟩, 5, 5⟩)],
    currentContract := Address.contractFromKey (.account 3) [4],
    authorized := [], pendingWasm := none }

/-- Lookup after pointwise adjustment of the entry at one key: adjusting the
contracts map at key `a` with `g` changes the artifact found at `a` by `g` and
nothing else. -/
theorem lookupArtifact_map_adjust (l : List (Address × Artifact)) (a : Address)
    (g : Artifact → Artifact) :
    lookupArtifact (l.map fun p => if p.1 = a then (p.1, g p.2) else p) a =
      (lookupArtifact l a).map g := by
  induction l with
  | nil => rfl
  | cons p rest ih =>
    obtain ⟨b, art⟩ := p
    rw [List.map_cons]
    by_cases hb : b = a
    · subst hb
      rw [show (if ((b, art) : Address × Artifact).1 = b
            then (((b, art) : Address × Artifact).1,
                  g ((b, art) : Address × Artifact).2)
            else (b, art)) = (b, g art) from if_pos rfl]
      simp [lookupArtifact]
    · rw [show (if ((b, art) : Address × Artifact).1 = a
            then (((b, art) : Address × Artifact).1,
                  g ((b, art) : Address × Artifact).2)
            else (b, art)) = (b, art) from if_neg hb]
      simp [lookupArtifact, hb, ih]

/-- A successful `createContract` returns exactly the address derived from
the deployer address and salt it was given. -/
theorem createContract_ok_addr (s : HostState) (deployer : Address)
    (wasmHash : Digest) (salt : List Nat) (a : Address) (s2 : HostState)
    (h : createContract s deployer wasmHash salt = (.ok a, s2)) :
    a = Address.contractFromKey deployer salt := by
  unfold createContract at h
  split at h
  · exact absurd (congrArg Prod.fst h) (by simp)
  · split at h
    · exact absurd (congrArg Prod.fst h) (by simp)
    · have := congrArg Prod.fst h
      simp at this
      exact this.symm

/-- An authorized `createContract` on a free derived address installs the
artifact there and returns the derived address. -/
theorem createContract_ok_of_free (s : HostState) (deployer : Address)
    (wasmHash : Digest) (salt : List Nat)
    (hauth : ¬(deployer ≠ s.currentContract ∧ deployer ∉ s.authorized))
    (hfree : s.lookup (Address.contractFromKey deployer salt) = none) :
    createContract s deployer wasmHash salt =
      (.ok (Address.contractFromKey deployer salt),
       { s with
          contracts :=
            (Address.contractFromKey deployer salt,
             ⟨.wasm wasmHash, initialTtl, initialTtl⟩) :: s.contracts }) := by
  unfold createContract
  rw [if_neg hauth, hfree]

/-- An authorized `createContract` on an occupied derived address fails with
AlreadyExists and leaves the state unchanged. -/
theorem createContract_alreadyExists (s : HostState) (deployer : Address)
    (wasmHash : Digest) (salt : List Nat) (art : Artifact)
    (hauth : ¬(deployer ≠ s.currentContract ∧ deployer ∉ s.authorized))
    (hocc : s.lookup (Address.contractFromKey deployer salt) = some art) :
    createContract s deployer wasmHash salt = (.error .alreadyExists, s) := by
  unfold createContract
  rw [if_neg hauth, hocc]

/-- C1: a successful `deploy` returns exactly the address that
`deployed_address` reported before the deployment and that `get_contract_id`
reports on the post-deployment state, and `deployed_address` is a pure
function of the stored `(address, salt)` pair, independent of the host state
it is asked in. -/
theorem deploy_address_deterministic (s s' : HostState)
    (d : DeployerWithAddress) (wasmHash : Digest) (a : Address)
    (s2 : HostState)
    (hd : DeployerWithAddress.deploy s d wasmHash = (.ok a, s2)) :
    a = (DeployerWithAddress.deployed_address s d).1 ∧
    a = (getContractId s2 d.address d.salt).1 ∧
    (DeployerWithAddress.deployed_address s' d).1 =
      (DeployerWithAddress.deployed_address s d).1 := by
  have ha := createContract_ok_addr s d.address wasmHash d.salt a s2 hd
  exact ⟨ha, ha, rfl⟩

/-- C1 witness: on the concrete state `sEx`, `dEx` successfully deploys `hEx`
and the determinism conclusions hold there. -/
theorem deploy_address_deterministic_witness :
    DeployerWithAddress.deploy sEx dEx hEx =
      (.ok (Address.contractFromKey (.account 0) [1, 2]), s2Ex) ∧
    (Address.contractFromKey (.account 0) [1, 2] =
        (DeployerWithAddress.deployed_address sEx dEx).1 ∧
      Address.contractFromKey (.account 0) [1, 2] =
        (getContractId s2Ex dEx.address dEx.salt).1 ∧
      (DeployerWithAddress.deployed_address s2Ex dEx).1 =
        (DeployerWithAddress.deployed_address sEx dEx).1) :=
  ⟨rfl, deploy_address_deterministic sEx s2Ex dEx hEx _ s2Ex rfl⟩

/-- C4: a generic-scheme address (derived from an address and a salt) is
never equal to an asset-scheme address (derived from a serialized asset),
whatever the salt and descriptor. -/
theorem scheme_non_collision (s s' : HostState) (d : DeployerWithAddress)
    (da : DeployerWithAsset) :
    (DeployerWithAddress.deployed_address s d).1 ≠
      (DeployerWithAsset.deployed_address s' da).1 :=
  fun h => Address.noConfusion h

/-- C4 witness: at the concrete inputs — the deployer `dEx` and the asset
deployer for descriptor `[5]` — the two derived addresses differ. -/
theorem scheme_non_collision_witness :
    (DeployerWithAddress.deployed_address sEx dEx).1 =
      Address.contractFromKey (.account 0) [1, 2] ∧
    (DeployerWithAddress.deployed_address sEx dEx).1 ≠
      (DeployerWithAsset.deployed_address sEx
        (Deployer.with_hcnet_asset [5])).1 :=
  ⟨rfl, scheme_non_collision sEx sEx dEx (Deployer.with_hcnet_asset [5])⟩

/-- C7: the deployer built by `with_current_contract` is the very deployer
built by `with_address` on the currently executing contract's address — the
structures are equal, so `deployed_address` and `deploy` agree on them in
every state, and both feed the canonical `(address, salt)` pair to the
generic derivation. -/
theorem with_current_contract_refines_with_address (s : HostState)
    (salt : List Nat) :
    Deployer.with_current_contract s salt =
      Deployer.with_address s.currentContract salt ∧
    (∀ s2, DeployerWithAddress.deployed_address s2
        (Deployer.with_current_contract s salt) =
      DeployerWithAddress.deployed_address s2
        (Deployer.with_address s.currentContract salt)) ∧
    (∀ s2 wasmHash, DeployerWithAddress.deploy s2
        (Deployer.with_current_contract s salt) wasmHash =
      DeployerWithAddress.deploy s2
        (Deployer.with_address s.currentContract salt) wasmHash) ∧
    (∀ s2, (DeployerWithAddress.deployed_address s2
        (Deployer.with_current_contract s salt)).1 =
      Address.contractFromKey s.currentContract salt) :=
  ⟨rfl, fun _ => rfl, fun _ _ => rfl, fun _ => rfl⟩

/-- C8: `deployed_address` for both deployer kinds always succeeds (it totally
returns an address, with no error channel), leaves the host state exactly
unchanged, and its result is the pure derivation of the stored key — no
authorization set is consulted and nothing is mutated. -/
theorem deployed_address_pure (s : HostState) (d : DeployerWithAddress)
    (da : DeployerWithAsset) :
    (DeployerWithAddress.deployed_address s d).2 = s ∧
    (DeployerWithAsset.deployed_address s da).2 = s ∧
    (DeployerWithAddress.deployed_address s d).1 =
      Address.contractFromKey d.address d.salt ∧
    (DeployerWithAsset.deployed_address s da).1 =
      Address.contractFromAsset da.serialized_asset :=
  ⟨rfl, rfl, rfl, rfl⟩

/-- C10: the deployment key is fixed at construction — `with_current_contract`
snapshots the currently executing contract's address and the salt into the
structure, `deployed_address` evaluated in any later state uses exactly the
stored pair, and a successful `deploy` in any later state returns exactly the
address derived from the stored pair. -/
theorem deployer_key_immutable (s s2 s3 : HostState) (salt : List Nat)
    (d : DeployerWithAddress) (wasmHash : Digest) (a : Address)
    (s4 : HostState)
    (hd : DeployerWithAddress.deploy s3 d wasmHash = (.ok a, s4)) :
    (Deployer.with_current_contract s salt).address = s.currentContract ∧
    (Deployer.with_current_contract s salt).salt = salt ∧
    (DeployerWithAddress.deployed_address s2 d).1 =
      Address.contractFromKey d.address d.salt ∧
    a = Address.contractFromKey d.address d.salt ∧
    (DeployerWithAddress.deployed_address s2
        (Deployer.with_current_contract s salt)).1 =
      Address.contractFromKey s.currentContract salt := by
  exact ⟨rfl, rfl, rfl, createContract_ok_addr s3 d.address wasmHash d.salt a s4 hd, rfl⟩

/-- C10 witness: the key-immutability conclusions at the concrete state
`sEx`, with the concrete successful deployment discharging the hypothesis. -/
theorem deployer_key_immutable_witness :
    DeployerWithAddress.deploy sEx dEx hEx =
      (.ok (Address.contractFromKey (.account 0) [1, 2]), s2Ex) ∧
    ((Deployer.with_current_contract sEx [3]).address = sEx.currentContract ∧
     (Deployer.with_current_contract sEx [3]).salt = [3] ∧
     (DeployerWithAddress.deployed_address s2Ex dEx).1 =
       Address.contractFromKey dEx.address dEx.salt ∧
     Address.contractFromKey (.account 0) [1, 2] =
       Address.contractFromKey dEx.address dEx.salt ∧
     (DeployerWithAddress.deployed_address s2Ex
         (Deployer.with_current_contract sEx [3])).1 =
       Address.contractFromKey sEx.currentContract [3]) :=
  ⟨rfl, deployer_key_immutable sEx s2Ex sEx [3] dEx hEx
      (Address.contractFromKey (.account 0) [1, 2]) s2Ex rfl⟩

/-- C2 counterexample: on `sUnauth` no artifact exists at the address derived
for `dUnauth`, yet `deploy` does not succeed — it fails with Unauthorized,
because the deployer address is neither the current contract nor authorized.
So "deploy succeeds if and only if no artifact already exists at the derived
address" is false as stated. -/
theorem deploy_succeeds_iff_free_counterexample :
    sUnauth.lookup (Address.contractFromKey dUnauth.address dUnauth.salt) =
      none ∧
    (DeployerWithAddress.deploy sUnauth dUnauth ⟨[]⟩).1 =
      .error .unauthorized ∧
    (DeployerWithAddress.deploy sUnauth dUnauth ⟨[]⟩).2 = sUnauth :=
  ⟨rfl, rfl, rfl⟩

/-- C2 (amended): provided the deployer address is the current contract or
has authorized the invocation, `deploy` succeeds exactly when no artifact
exists at the derived address; after a first successful `deploy`, a second
`deploy` with the same `(address, salt)` fails with AlreadyExists and leaves
the state unchanged; and a `deploy` on an occupied address fails with
AlreadyExists leaving the state unchanged. -/
theorem deploy_single_allocation (s : HostState) (d : DeployerWithAddress)
    (wasmHash wasmHash2 : Digest)
    (hauth : d.address = s.currentContract ∨ d.address ∈ s.authorized) :
    ((DeployerWithAddress.deploy s d wasmHash).1 =
        .ok (Address.contractFromKey d.address d.salt) ↔
      s.lookup (Address.contractFromKey d.address d.salt) = none) ∧
    (s.lookup (Address.contractFromKey d.address d.salt) = none →
      (DeployerWithAddress.deploy
          (DeployerWithAddress.deploy s d wasmHash).2 d wasmHash2).1 =
        .error .alreadyExists ∧
      (DeployerWithAddress.deploy
          (DeployerWithAddress.deploy s d wasmHash).2 d wasmHash2).2 =
        (DeployerWithAddress.deploy s d wasmHash).2) ∧
    (∀ art, s.lookup (Address.contractFromKey d.address d.salt) = some art →
      (DeployerWithAddress.deploy s d wasmHash).1 = .error .alreadyExists ∧
      (DeployerWithAddress.deploy s d wasmHash).2 = s) := by
  have hcond : ¬(d.address ≠ s.currentContract ∧ d.address ∉ s.authorized) := by
    rcases hauth with h | h
    · exact fun hc => hc.1 h
    · exact fun hc => hc.2 h
  refine ⟨⟨?_, ?_⟩, ?_, ?_⟩
  · intro hok
    cases hl : s.lookup (Address.contractFromKey d.address d.salt) with
    | none => rfl
    | some art =>
      rw [show DeployerWithAddress.deploy s d wasmHash =
            createContract s d.address wasmHash d.salt from rfl,
          createContract_alreadyExists s d.address wasmHash d.salt art
            hcond hl] at hok
      exact absurd hok (by simp)
  · intro hfree
    rw [show DeployerWithAddress.deploy s d wasmHash =
          createContract s d.address wasmHash d.salt from rfl,
        createContract_ok_of_free s d.address wasmHash d.salt hcond hfree]
  · intro hfree
    have h1 := createContract_ok_of_free s d.address wasmHash d.salt
      hcond hfree
    have h2 : (DeployerWithAddress.deploy s d wasmHash).2 =
        { s with
           contracts :=
             (Address.contractFromKey d.address d.salt,
              ⟨.wasm wasmHash, initialTtl, initialTtl⟩) :: s.contracts } :=
      congrArg Prod.snd h1
    rw [h2]
    have hocc :
        ({ s with
            contracts :=
              (Address.contractFromKey d.address d.salt,
               ⟨.wasm wasmHash, initialTtl, initialTtl⟩) ::
                s.contracts } : HostState).lookup
          (Address.contractFromKey d.address d.salt) =
        some ⟨.wasm wasmHash, initialTtl, initialTtl⟩ := by
      show lookupArtifact _ _ = _
      rw [show lookupArtifact
            ((Address.contractFromKey d.address d.salt,
              (⟨.wasm wasmHash, initialTtl, initialTtl⟩ : Artifact)) ::
                s.contracts)
            (Address.contractFromKey d.address d.salt) =
          some ⟨.wasm wasmHash, initialTtl, initialTtl⟩ from if_pos rfl]
    have := createContract_alreadyExists
      { s with
         contracts :=
           (Address.contractFromKey d.address d.salt,
            ⟨.wasm wasmHash, initialTtl, initialTtl⟩) :: s.contracts }
      d.address wasmHash2 d.salt ⟨.wasm wasmHash, initialTtl, initialTtl⟩
      hcond hocc
    exact ⟨congrArg Prod.fst this, congrArg Prod.snd this⟩
  · intro art hocc
    have := createContract_alreadyExists s d.address wasmHash d.salt art
      hcond hocc
    exact ⟨congrArg Prod.fst this, congrArg Prod.snd this⟩

/-- C2 witness: the amended single-allocation conclusions at the concrete
state `sEx`, where the deployer is the current contract. -/
theorem deploy_single_allocation_witness :
    (dEx.address = sEx.currentContract ∨ dEx.address ∈ sEx.authorized) ∧
    (((DeployerWithAddress.deploy sEx dEx hEx).1 =
        .ok (Address.contractFromKey dEx.address dEx.salt) ↔
      sEx.lookup (Address.contractFromKey dEx.address dEx.salt) = none) ∧
     (sEx.lookup (Address.contractFromKey dEx.address dEx.salt) = none →
       (DeployerWithAddress.deploy
           (DeployerWithAddress.deploy sEx dEx hEx).2 dEx hEx).1 =
         .error .alreadyExists ∧
       (DeployerWithAddress.deploy
           (DeployerWithAddress.deploy sEx dEx hEx).2 dEx hEx).2 =
         (DeployerWithAddress.deploy sEx dEx hEx).2) ∧
     (∀ art, sEx.lookup (Address.contractFromKey dEx.address dEx.salt) =
         some art →
       (DeployerWithAddress.deploy sEx dEx hEx).1 = .error .alreadyExists ∧
       (DeployerWithAddress.deploy sEx dEx hEx).2 = sEx)) :=
  ⟨Or.inl rfl, deploy_single_allocation sEx dEx hEx hEx (Or.inl rfl)⟩

/-- C3 counterexample: on `sTtl` both entries of `aTtl` have TTL 5; extending
with threshold 10 and target 3 leaves both TTLs at 5 (the floor policy), so
the clause "if its remaining TTL is strictly below threshold its TTL becomes
exactly extend_to" is false at this input — it cannot hold together with
"never decreases an entry's TTL even when extend_to is less than the current
TTL". -/
theorem extend_ttl_exact_counterexample :
    (Deployer.extend_ttl sTtl aTtl 10 3).2.lookup aTtl =
      some ⟨.wasm ⟨[]⟩, 5, 5⟩ ∧
    (Deployer.extend_ttl sTtl aTtl 10 3).2.lookup aTtl ≠
      some ⟨.wasm ⟨[]⟩, 3, 3⟩ := by
  refine ⟨rfl, ?_⟩
  intro h
  rw [show (Deployer.extend_ttl sTtl aTtl 10 3).2.lookup aTtl =
      some ⟨.wasm ⟨[]⟩, 5, 5⟩ from rfl] at h
  exact absurd h (by simp)

/-- C3 (amended): for an allocated address, `extend_ttl` succeeds and treats
the instance entry and code entry independently: an entry with TTL strictly
below `threshold` gets TTL `max` of its current TTL and `extendTo` (so
exactly `extendTo` whenever `extendTo` is at least the current TTL), an entry
at or above `threshold` is unchanged, and neither TTL ever decreases. -/
theorem extend_ttl_semantics (s : HostState) (a : Address)
    (threshold extendTo : Nat) (art : Artifact)
    (hl : s.lookup a = some art) :
    (Deployer.extend_ttl s a threshold extendTo).1 = .ok () ∧
    (Deployer.extend_ttl s a threshold extendTo).2.lookup a =
      some { executable := art.executable
             ttlInstance :=
               if art.ttlInstance < threshold then
                 max art.ttlInstance extendTo
               else art.ttlInstance
             ttlCode :=
               if art.ttlCode < threshold then max art.ttlCode extendTo
               else art.ttlCode } ∧
    (∀ art2, (Deployer.extend_ttl s a threshold extendTo).2.lookup a =
        some art2 →
      art.ttlInstance ≤ art2.ttlInstance ∧ art.ttlCode ≤ art2.ttlCode) := by
  have hmain : Deployer.extend_ttl s a threshold extendTo =
      (.ok (),
       { s with
          contracts := s.contracts.map fun p =>
            if p.1 = a then (p.1, extendArtifact threshold extendTo p.2)
            else p }) := by
    unfold Deployer.extend_ttl extendContractInstanceAndCodeTtl
    rw [hl]
  have hlook : (Deployer.extend_ttl s a threshold extendTo).2.lookup a =
      some (extendArtifact threshold extendTo art) := by
    rw [hmain]
    show lookupArtifact _ _ = _
    rw [lookupArtifact_map_adjust s.contracts a
      (extendArtifact threshold extendTo)]
    rw [show lookupArtifact s.contracts a = some art from hl]
    rfl
  refine ⟨congrArg Prod.fst hmain, hlook, ?_⟩
  intro art2 h2
  rw [hlook] at h2
  have h3 : extendArtifact threshold extendTo art = art2 :=
    Option.some.inj h2
  subst h3
  constructor
  · show art.ttlInstance ≤ extendTtlEntry art.ttlInstance threshold extendTo
    unfold extendTtlEntry
    split
    · exact le_max_left _ _
    · exact le_refl _
  · show art.ttlCode ≤ extendTtlEntry art.ttlCode threshold extendTo
    unfold extendTtlEntry
    split
    · exact le_max_left _ _
    · exact le_refl _

/-- C3 witness: the amended TTL conclusions on the concrete state `sTtl`,
extending with threshold 10 and target 1000 (both entries are below the
threshold and are raised to exactly 1000). -/
theorem extend_ttl_semantics_witness :
    sTtl.lookup aTtl = some ⟨.wasm ⟨[]⟩, 5, 5⟩ ∧
    ((Deployer.extend_ttl sTtl aTtl 10 1000).1 = .ok () ∧
     (Deployer.extend_ttl sTtl aTtl 10 1000).2.lookup aTtl =
       some { executable := .wasm ⟨[]⟩
              ttlInstance := if 5 < 10 then max 5 1000 else 5
              ttlCode := if 5 < 10 then max 5 1000 else 5 } ∧
     (∀ art2, (Deployer.extend_ttl sTtl aTtl 10 1000).2.lookup aTtl =
         some art2 → 5 ≤ art2.ttlInstance ∧ 5 ≤ art2.ttlCode)) :=
  ⟨rfl, extend_ttl_semantics sTtl aTtl 10 1000 ⟨.wasm ⟨[]⟩, 5, 5⟩ rfl⟩

/-- C5: a successful `update_current_contract_wasm` has no immediately
observable effect — the contracts map is unchanged and the current contract
still reads its old artifact — the swap is only recorded as pending; it is
applied to the current contract's entry exactly when the invocation commits;
and when the invocation body fails, the whole invocation leaves the initial
state, so the swap has not occurred. -/
theorem update_wasm_deferred (s : HostState) (wasmHash : Digest)
    (art : Artifact) (hreg : wasmHash ∈ s.codeRegistry)
    (hl : s.lookup s.currentContract = some art) :
    (Deployer.update_current_contract_wasm s wasmHash).1 = .ok () ∧
    (Deployer.update_current_contract_wasm s wasmHash).2.contracts =
      s.contracts ∧
    (Deployer.update_current_contract_wasm s wasmHash).2.lookup
      s.currentContract = some art ∧
    (commitInvocation
        (Deployer.update_current_contract_wasm s wasmHash).2).lookup
      s.currentContract = some (setExecutable (.wasm wasmHash) art) ∧
    (∀ body : HostState → Except HostError HostState, ∀ e : HostError,
      body s = .error e → runInvocation s body = s) := by
  have hupd : Deployer.update_current_contract_wasm s wasmHash =
      (.ok (), { s with pendingWasm := some wasmHash }) := by
    unfold Deployer.update_current_contract_wasm updateCurrentContractWasm
    rw [if_pos hreg]
  refine ⟨congrArg Prod.fst hupd, ?_, ?_, ?_, ?_⟩
  · rw [hupd]
  · rw [hupd]
    exact hl
  · rw [hupd]
    show lookupArtifact
        (s.contracts.map fun p =>
          if p.1 = s.currentContract then
            (p.1, setExecutable (.wasm wasmHash) p.2)
          else p)
        s.currentContract = _
    rw [lookupArtifact_map_adjust s.contracts s.currentContract
      (setExecutable (.wasm wasmHash))]
    rw [show lookupArtifact s.contracts s.currentContract = some art from hl]
    rfl
  · intro body e hbody
    unfold runInvocation
    rw [hbody]

/-- C5 witness: the deferred-swap conclusions at the concrete state `sUpd`,
whose current contract holds Wasm digest `[8]` and swaps to the uploaded
digest `[9]`. -/
theorem update_wasm_deferred_witness :
    ((⟨[9]⟩ : Digest) ∈ sUpd.codeRegistry ∧
     sUpd.lookup sUpd.currentContract = some ⟨.wasm ⟨[8]⟩, 5, 5⟩) ∧
    ((Deployer.update_current_contract_wasm sUpd ⟨[9]⟩).1 = .ok () ∧
     (Deployer.update_current_contract_wasm sUpd ⟨[9]⟩).2.contracts =
       sUpd.contracts ∧
     (Deployer.update_current_contract_wasm sUpd ⟨[9]⟩).2.lookup
       sUpd.currentContract = some ⟨.wasm ⟨[8]⟩, 5, 5⟩ ∧
     (commitInvocation
         (Deployer.update_current_contract_wasm sUpd ⟨[9]⟩).2).lookup
       sUpd.currentContract =
       some (setExecutable (.wasm ⟨[9]⟩) ⟨.wasm ⟨[8]⟩, 5, 5⟩) ∧
     (∀ body : HostState → Except HostError HostState, ∀ e : HostError,
       body sUpd = .error e → runInvocation sUpd body = sUpd)) :=
  ⟨⟨by decide, rfl⟩,
   update_wasm_deferred sUpd ⟨[9]⟩ ⟨.wasm ⟨[8]⟩, 5, 5⟩ (by decide) rfl⟩

/-- C6: uploading the same bytes twice yields the same digest and the second
upload leaves the host state (in particular the code registry) exactly as the
first left it; uploads of distinct byte contents yield distinct digests. -/
theorem upload_idempotent (s : HostState) (b b2 : List Nat) (hne : b ≠ b2) :
    (Deployer.upload_contract_wasm
        (Deployer.upload_contract_wasm s b).2 b).1 =
      (Deployer.upload_contract_wasm s b).1 ∧
    (Deployer.upload_contract_wasm
        (Deployer.upload_contract_wasm s b).2 b).2 =
      (Deployer.upload_contract_wasm s b).2 ∧
    (Deployer.upload_contract_wasm s b).1 ≠
      (Deployer.upload_contract_wasm s b2).1 := by
  have hfst : ∀ (t : HostState) (c : List Nat),
      (Deployer.upload_contract_wasm t c).1 = ⟨c⟩ := by
    intro t c
    unfold Deployer.upload_contract_wasm uploadWasm
    split <;> rfl
  have hmem : (⟨b⟩ : Digest) ∈
      (Deployer.upload_contract_wasm s b).2.codeRegistry := by
    unfold Deployer.upload_contract_wasm uploadWasm
    by_cases hm : (⟨b⟩ : Digest) ∈ s.codeRegistry
    · rw [if_pos hm]
      exact hm
    · rw [if_neg hm]
      exact List.mem_cons_self _ _
  have hsecond : Deployer.upload_contract_wasm
      (Deployer.upload_contract_wasm s b).2 b =
      (⟨b⟩, (Deployer.upload_contract_wasm s b).2) := by
    show uploadWasm (Deployer.upload_contract_wasm s b).2 b = _
    unfold uploadWasm
    rw [if_pos hmem]
  refine ⟨?_, ?_, ?_⟩
  · rw [hsecond, hfst]
  · rw [hsecond]
  · rw [hfst, hfst]
    intro h
    exact hne (congrArg Digest.bytes h)

/-- C6 witness: the idempotence conclusions for the concrete uploads of bytes
`[0]` and `[1]` on the state `sEx`. -/
theorem upload_idempotent_witness :
    ([0] ≠ ([1] : List Nat)) ∧
    ((Deployer.upload_contract_wasm
        (Deployer.upload_contract_wasm sEx [0]).2 [0]).1 =
      (Deployer.upload_contract_wasm sEx [0]).1 ∧
     (Deployer.upload_contract_wasm
        (Deployer.upload_contract_wasm sEx [0]).2 [0]).2 =
      (Deployer.upload_contract_wasm sEx [0]).2 ∧
     (Deployer.upload_contract_wasm sEx [0]).1 ≠
      (Deployer.upload_contract_wasm sEx [1]).1) :=
  ⟨by decide, upload_idempotent sEx [0] [1] (by decide)⟩

/-- C9: the SDK operations surface host-reported failures to the caller
verbatim as typed error values — whenever the host call reports an error, the
SDK operation reports exactly that error, and the SDK operation reports no
error the host did not report (nothing is retried or swallowed). -/
theorem host_errors_surfaced (s : HostState) (d : DeployerWithAddress)
    (wasmHash : Digest) (a : Address) (threshold extendTo : Nat)
    (e : HostError) :
    ((createContract s d.address wasmHash d.salt).1 = .error e →
      (DeployerWithAddress.deploy s d wasmHash).1 = .error e) ∧
    ((extendContractInstanceAndCodeTtl s a threshold extendTo).1 =
        .error e →
      (Deployer.extend_ttl s a threshold extendTo).1 = .error e) ∧
    ((updateCurrentContractWasm s wasmHash).1 = .error e →
      (Deployer.update_current_contract_wasm s wasmHash).1 = .error e) ∧
    ((DeployerWithAddress.deploy s d wasmHash).1 ≠ .error e →
      (createContract s d.address wasmHash d.salt).1 ≠ .error e) :=
  ⟨id, id, id, id⟩

/-- C9 witness: on the concrete state `sUnauth` the host `create_contract`
reports Unauthorized and the SDK `deploy` surfaces exactly that error. -/
theorem host_errors_surfaced_witness :
    (createContract sUnauth dUnauth.address ⟨[]⟩ dUnauth.salt).1 =
      .error .unauthorized ∧
    (DeployerWithAddress.deploy sUnauth dUnauth ⟨[]⟩).1 =
      .error .unauthorized :=
  ⟨rfl,
   (host_errors_surfaced sUnauth dUnauth ⟨[]⟩ (.account 0) 0 0
       .unauthorized).1 rfl⟩

end Soroban
